import Mathlib

/-!
Shallow embedding of the `scratchdir` Python module (src/scratchdir.py).

The module manages a temporary working directory (`ScratchDir`) together
with two pieces of ambient state:
  * the process-wide default temp-directory root `tempfile.tempdir`, and
  * the filesystem, modelled as the set (list) of paths that exist.
All name-generating primitives of the `tempfile` standard library take the
random component of the generated name as an explicit oracle argument
(`tok`), since the randomness source is external to the module.
Fallible filesystem primitives return `Except`.
-/

/-- Errors surfaced by the embedded operations: `inactive` models
`ScratchDirInactiveError`; `notFound` models `FileNotFoundError` raised by
the underlying `tempfile` / `os` primitives. -/
inductive Err where
  | inactive
  | notFound
deriving DecidableEq, Repr

/-- Membership of a path in the filesystem (kernel-friendly `List.contains`). -/
def listContains (xs : List String) (x : String) : Bool :=
  xs.any (fun y => decide (y = x))

/-- Kernel-friendly list prefix test over characters. -/
def listIsPre : List Char → List Char → Bool
  | [], _ => true
  | _ :: _, [] => false
  | a :: as, b :: bs => decide (a = b) && listIsPre as bs

/-- Ambient state outside any one `ScratchDir` instance: the process-wide
`tempfile.tempdir` global and the filesystem (the set of existing paths). -/
structure Sys where
  tempdir : Option String
  fs : List String
deriving DecidableEq, Repr

/-- The platform default temp directory, used by `tempfile.gettempdir()`
when `tempfile.tempdir` is unset. -/
def PLATFORM_TMPDIR : String := "/tmp"

/-- `tempfile.gettempdir()`: the configured global when set, else the
platform default. -/
def gettempdir : Option String → String
  | some d => d
  | none => PLATFORM_TMPDIR

/-- The value of `tempfile.tempdir` at module import time.  Python
evaluates the default of the constructor parameter `root` once, when
`def __init__` is executed, so this frozen value (normally `None`) is the
`root` default — not whatever the global holds later. -/
def INIT_TEMPDIR : Option String := none

/-- Default working directory value (module constant `DEFAULT_WD = ''`). -/
def DEFAULT_WD : String := ""

/-- `DEFAULT_PREFIX` for Python >= 3.5: `None`. -/
def DEFAULT_PFX : Option String := none

/-- `DEFAULT_SUFFIX` for Python >= 3.5: `None`. -/
def DEFAULT_SFX : Option String := none

/-- `tempfile._sanitize_params` for the name prefix: `None` becomes the
template `tmp`. -/
def sanitizePfx : Option String → String
  | none => "tmp"
  | some p => p

/-- `tempfile._sanitize_params` for the name suffix: `None` becomes `''`. -/
def sanitizeSfx : Option String → String
  | none => ""
  | some s => s

/-- `os.path.join` for two POSIX path components: an absolute second
component discards the first; otherwise a separator is inserted unless the
first component is empty or already ends with one. -/
def pathJoin (a b : String) : String :=
  if b.data.head? = some '/' then b
  else if a = "" ∨ a.data.getLast? = some '/' then a ++ b
  else a ++ "/" ++ b

/-- `os.path.join(wd, *parts)`: left fold of the binary join. -/
def osPathJoin (wd : String) (parts : List String) : String :=
  parts.foldl pathJoin wd

/-- The survival test of `shutil.rmtree(p)`: a path stays on disk when it
is neither `p` itself nor strictly below `p`. -/
def outsideTree (p q : String) : Bool :=
  !(decide (q = p) || listIsPre (p ++ "/").data q.data)

/-- `shutil.rmtree(p)`: recursively removes `p` and everything beneath it;
raises `FileNotFoundError` when `p` does not exist. -/
def rmtree (p : String) (sys : Sys) : Except Err Sys :=
  if listContains sys.fs p then
    Except.ok { sys with fs := sys.fs.filter (outsideTree p) }
  else Except.error Err.notFound

/-- Resolution of the `dir` argument of the `tempfile` primitives: an
explicit directory wins, otherwise `gettempdir()` is consulted. -/
def dirOrDefault : Option String → Sys → String
  | some d, _ => d
  | none, sys => gettempdir sys.tempdir

/-- `tempfile.mkdtemp(suffix, prefix, dir)`: creates one new directory
named `prefix ++ tok ++ suffix` under `dir` (or under `gettempdir()` when
`dir` is `None`); fails when the target directory does not exist.  `tok`
is the random candidate name supplied by the oracle. -/
def mkdtemp (tok : String) (sfx pfx : Option String) (dir : Option String) (sys : Sys) :
    Except Err (String × Sys) :=
  if listContains sys.fs (dirOrDefault dir sys) then
    Except.ok (pathJoin (dirOrDefault dir sys) (sanitizePfx pfx ++ tok ++ sanitizeSfx sfx),
      { sys with fs := pathJoin (dirOrDefault dir sys) (sanitizePfx pfx ++ tok ++ sanitizeSfx sfx) :: sys.fs })
  else Except.error Err.notFound

/-- `tempfile.mkstemp(suffix, prefix, dir, text)`: creates one new file and
returns its descriptor and name; fails when `dir` does not exist.  The
descriptor `fd` and name component `tok` come from the oracle. -/
def mkstemp (tok : String) (fd : Nat) (sfx pfx : Option String) (dir : String) (sys : Sys) :
    Except Err ((Nat × String) × Sys) :=
  if listContains sys.fs dir then
    Except.ok ((fd, pathJoin dir (sanitizePfx pfx ++ tok ++ sanitizeSfx sfx)),
      { sys with fs := pathJoin dir (sanitizePfx pfx ++ tok ++ sanitizeSfx sfx) :: sys.fs })
  else Except.error Err.notFound

/-- `tempfile.TemporaryFile(...)`: creates an anonymous file in `dir`
(unlinked immediately, so no path becomes visible); fails when `dir` does
not exist.  The mode/buffering/encoding/newline arguments configure the
returned handle, not the filesystem, and are omitted. -/
def TemporaryFile (dir : String) (sys : Sys) : Except Err (Unit × Sys) :=
  if listContains sys.fs dir then Except.ok ((), sys)
  else Except.error Err.notFound

/-- `tempfile.NamedTemporaryFile(...)`: creates one named file in `dir`
and returns its name; fails when `dir` does not exist.  The `delete` flag
only affects close-time behaviour of the handle. -/
def NamedTemporaryFile (tok : String) (sfx pfx : Option String) (dir : String)
    (delete : Bool) (sys : Sys) : Except Err (String × Sys) :=
  if listContains sys.fs dir then
    Except.ok (pathJoin dir (sanitizePfx pfx ++ tok ++ sanitizeSfx sfx),
      { sys with fs := pathJoin dir (sanitizePfx pfx ++ tok ++ sanitizeSfx sfx) :: sys.fs })
  else Except.error Err.notFound

/-- Hex digit characters used by the uuid string form. -/
def hexChar (n : Nat) : Char :=
  if n < 10 then Char.ofNat (48 + n) else Char.ofNat (87 + n)

/-- Fixed-width big-endian hex rendering of a natural number. -/
def toHexFixed : Nat → Nat → List Char
  | 0, _ => []
  | k + 1, n => toHexFixed k (n / 16) ++ [hexChar (n % 16)]

/-- Inserts the four dashes of the canonical 8-4-4-4-12 uuid layout into a
32-character hex string. -/
def dashify (h : List Char) : List Char :=
  h.take 8 ++ '-' ::
    ((h.drop 8).take 4 ++ '-' ::
      (((h.drop 8).drop 4).take 4 ++ '-' ::
        ((((h.drop 8).drop 4).drop 4).take 4 ++ '-' ::
          (((h.drop 8).drop 4).drop 4).drop 4)))

/-- `str(uuid.uuid4())`: the canonical string form of a 128-bit
identifier.  The 128-bit random value (version/variant bits included) is
supplied by the oracle as `u`. -/
def uuidStr (u : Nat) : String :=
  String.mk (dashify (toHexFixed 32 (u % 2 ^ 128)))

/-- The `ScratchDir` instance state (`__init__` fields).  `prefix` is a
Lean keyword, so that field is named `pfx`. -/
structure ScratchDir where
  pfx : String
  suffix : String
  base : Option String
  root : Option String
  wd : String
deriving DecidableEq, Repr

/-- The whole program state an operation acts on: the instance plus the
ambient state. -/
structure St where
  sd : ScratchDir
  sys : Sys
deriving DecidableEq, Repr

/-- An operation: a state transformer that may raise, threading the state
also on the error path (mutations made before the raise survive). -/
abbrev Op (α : Type) := St → Except Err α × St

/-- `ScratchDir.is_active`: `bool(self.wd) and os.path.exists(self.wd)`. -/
def ScratchDir.is_active (sd : ScratchDir) (sys : Sys) : Bool :=
  !decide (sd.wd = "") && listContains sys.fs sd.wd

/-- The `requires_activation` decorator: raise `ScratchDirInactiveError`
when the instance is not active, otherwise run the wrapped body. -/
def requires_activation {α : Type} (f : Op α) : Op α := fun st =>
  if st.sd.is_active st.sys then f st
  else (Except.error Err.inactive, st)

/-- The body of `ScratchDir.join` as a pure path computation:
`os.path.join(self.wd, *(str(p) for p in paths if p is not None))`. -/
def joinPure (sd : ScratchDir) (paths : List (Option String)) : String :=
  osPathJoin sd.wd (paths.filterMap id)

/-- `ScratchDir.setup`: sets `tempfile.tempdir = self.root`, then
`self.wd = self.wd or tempfile.mkdtemp(self.suffix, self.prefix, self.base)`
(the call is short-circuited away when `wd` is already truthy). -/
def ScratchDir.setup (tok : String) : Op Unit := fun st =>
  let sys1 : Sys := { st.sys with tempdir := st.sd.root }
  if st.sd.wd = "" then
    match mkdtemp tok (some st.sd.suffix) (some st.sd.pfx) st.sd.base sys1 with
    | Except.ok (path, sys2) => (Except.ok (), ⟨{ st.sd with wd := path }, sys2⟩)
    | Except.error e => (Except.error e, ⟨st.sd, sys1⟩)
  else (Except.ok (), ⟨st.sd, sys1⟩)

/-- `ScratchDir.teardown` with the recursive-delete primitive abstracted:
`shutil.rmtree(self.wd)` then `self.wd = DEFAULT_WD`; when the delete
raises, the assignment never runs. -/
def teardownWith (rm : String → Sys → Except Err Sys) : Op Unit :=
  requires_activation fun st =>
    match rm st.sd.wd st.sys with
    | Except.ok sys' => (Except.ok (), ⟨{ st.sd with wd := DEFAULT_WD }, sys'⟩)
    | Except.error e => (Except.error e, st)

/-- `ScratchDir.teardown` with the concrete `shutil.rmtree` model. -/
def ScratchDir.teardown : Op Unit := teardownWith rmtree

/-- `ScratchDir.child(prefix, suffix)`:
`self.__class__(prefix, suffix, self.wd)` — the remaining constructor
parameters take their defaults, and the default of `root` is the value
`tempfile.tempdir` had when `__init__` was defined (`INIT_TEMPDIR`). -/
def ScratchDir.child (p s : String) : Op ScratchDir :=
  requires_activation fun st =>
    (Except.ok ⟨p, s, some st.sd.wd, INIT_TEMPDIR, DEFAULT_WD⟩, st)

/-- `ScratchDir.file(...)`: `tempfile.TemporaryFile(..., self.join(dir))`. -/
def ScratchDir.file (dir : Option String) : Op Unit :=
  requires_activation fun st =>
    match TemporaryFile (joinPure st.sd [dir]) st.sys with
    | Except.ok ((), sys') => (Except.ok (), ⟨st.sd, sys'⟩)
    | Except.error e => (Except.error e, st)

/-- `ScratchDir.named(...)`:
`tempfile.NamedTemporaryFile(..., suffix, prefix, self.join(dir), delete)`. -/
def ScratchDir.named (tok : String) (sfx pfx : Option String) (dir : Option String)
    (delete : Bool) : Op String :=
  requires_activation fun st =>
    match NamedTemporaryFile tok sfx pfx (joinPure st.sd [dir]) delete st.sys with
    | Except.ok (nm, sys') => (Except.ok nm, ⟨st.sd, sys'⟩)
    | Except.error e => (Except.error e, st)

/-- `ScratchDir.spooled(...)`: constructing a
`tempfile.SpooledTemporaryFile` performs no filesystem I/O (it wraps an
in-memory buffer until rollover), so the body only computes the target
directory. -/
def ScratchDir.spooled (max_size : Nat) (dir : Option String) : Op String :=
  requires_activation fun st =>
    (Except.ok (joinPure st.sd [dir]), st)

/-- `ScratchDir.secure(...)`: `tempfile.mkstemp(suffix, prefix,
self.join(dir), text)`, then either the `(fd, name)` pair or — after
`os.close(fd)` — the name alone, per `return_fd`. -/
def ScratchDir.secure (tok : String) (fd : Nat) (sfx pfx : Option String)
    (dir : Option String) (return_fd : Bool) : Op (Sum (Nat × String) String) :=
  requires_activation fun st =>
    match mkstemp tok fd sfx pfx (joinPure st.sd [dir]) st.sys with
    | Except.ok ((fd', nm), sys') =>
      if return_fd then (Except.ok (Sum.inl (fd', nm)), ⟨st.sd, sys'⟩)
      else (Except.ok (Sum.inr nm), ⟨st.sd, sys'⟩)
    | Except.error e => (Except.error e, st)

/-- `ScratchDir.directory(...)`:
`tempfile.mkdtemp(suffix, prefix, self.join(dir))`. -/
def ScratchDir.directory (tok : String) (sfx pfx : Option String)
    (dir : Option String) : Op String :=
  requires_activation fun st =>
    match mkdtemp tok sfx pfx (some (joinPure st.sd [dir])) st.sys with
    | Except.ok (p, sys') => (Except.ok p, ⟨st.sd, sys'⟩)
    | Except.error e => (Except.error e, st)

/-- The `None`-to-`''` mapping performed inside `ScratchDir.filename`
(`prefix = prefix if prefix is not None else ''`, and likewise for the
suffix). -/
def optStr : Option String → String
  | none => ""
  | some x => x

/-- `ScratchDir.filename(suffix, prefix)`: maps `None` arguments to `''`
and returns `self.join(prefix + str(uuid.uuid4()) + suffix)`. -/
def ScratchDir.filename (u : Nat) (sfx pfx : Option String) : Op String :=
  requires_activation fun st =>
    (Except.ok (joinPure st.sd [some (optStr pfx ++ uuidStr u ++ optStr sfx)]), st)

/-- `ScratchDir.join(*paths)` (decorated with `requires_activation`). -/
def ScratchDir.join (paths : List (Option String)) : Op String :=
  requires_activation fun st =>
    (Except.ok (joinPure st.sd paths), st)

/-- `ScratchDir.__enter__`: `self.setup(); return self`. -/
def enterScope (tok : String) : Op ScratchDir := fun st =>
  match ScratchDir.setup tok st with
  | (Except.ok _, st1) => (Except.ok st1.sd, st1)
  | (Except.error e, st1) => (Except.error e, st1)

/-- `ScratchDir.__exit__`: `self.teardown()` — the exception information is
ignored and `None` is returned, so any scope-body exception propagates
after the teardown. -/
def exitScope : Op Unit := ScratchDir.teardown

/-- The `with` statement applied to a `ScratchDir`: run `__enter__`; if it
raises, propagate without running the body; otherwise run the body with the
yielded instance and then run `__exit__` unconditionally.  A teardown
failure propagates in place of the outcome of the body. -/
def withScope {α : Type} (tok : String) (body : ScratchDir → Op α) : Op α := fun st =>
  match enterScope tok st with
  | (Except.error e, st1) => (Except.error e, st1)
  | (Except.ok sd, st1) =>
    match body sd st1 with
    | (r, st2) =>
      match exitScope st2 with
      | (Except.ok _, st3) => (r, st3)
      | (Except.error e2, st3) => (Except.error e2, st3)

/-- Stated from the words of the spec for the refinement claim: calling
`setup()`, then the body, then `teardown()` unconditionally (also on a
body error), a teardown failure propagating in place of the body
outcome. -/
def setupThenTeardown {α : Type} (tok : String) (body : ScratchDir → Op α) : Op α := fun st =>
  match ScratchDir.setup tok st with
  | (Except.error e, st1) => (Except.error e, st1)
  | (Except.ok _, st1) =>
    match body st1.sd st1 with
    | (r, st2) =>
      match ScratchDir.teardown st2 with
      | (Except.ok _, st3) => (r, st3)
      | (Except.error e2, st3) => (Except.error e2, st3)

/-- Strict-descendant test on paths: `q` lies strictly below directory
`parent`, i.e. `parent ++ "/"` is a proper prefix of `q`. -/
def strictDescendant (parent q : String) : Bool :=
  listIsPre (parent ++ "/").data q.data && decide (parent.data.length + 1 < q.data.length)

/-! ## Basic lemmas about the embedded primitives -/

theorem listContains_iff (l : List String) (x : String) :
    listContains l x = true ↔ x ∈ l := by
  simp only [listContains, List.any_eq_true, decide_eq_true_eq]
  exact ⟨fun ⟨y, hy, he⟩ => he ▸ hy, fun h => ⟨x, h, rfl⟩⟩

theorem listIsPre_append (l m : List Char) : listIsPre l (l ++ m) = true := by
  induction l with
  | nil => rfl
  | cons a t ih => simp [listIsPre, ih]

theorem strData_append (a b : String) : (a ++ b).data = a.data ++ b.data := by
  cases a; cases b; rfl

theorem strExt {a b : String} (h : a.data = b.data) : a = b := by
  cases a; cases b; exact congrArg String.mk h

theorem strApp_cancel_left {a b c : String} (h : a ++ b = a ++ c) : b = c := by
  have hd := congrArg String.data h
  rw [strData_append, strData_append] at hd
  exact strExt (List.append_cancel_left hd)

theorem strApp_cancel_right {a b c : String} (h : a ++ c = b ++ c) : a = b := by
  have hd := congrArg String.data h
  rw [strData_append, strData_append] at hd
  exact strExt (List.append_cancel_right hd)

theorem strNe_data {a : String} (h : a ≠ "") : a.data ≠ [] := by
  intro hd
  exact h (strExt (by simpa using hd))

theorem pathJoin_ne_empty {a : String} (b : String) (h : a ≠ "") : pathJoin a b ≠ "" := by
  unfold pathJoin
  split
  · rename_i hh
    intro hb
    rw [hb] at hh
    simp at hh
  · split
    · intro hc
      have hd := congrArg String.data hc
      rw [strData_append] at hd
      simp at hd
      exact strNe_data h hd.1
    · intro hc
      have hd := congrArg String.data hc
      rw [strData_append, strData_append] at hd
      simp at hd

/-! ## Claim theorems -/

/-- Claim C1: entering the scope of a `ScratchDir` calls `setup()` and
yields the instance itself, and exiting the scope calls `teardown()`
unconditionally, so running a scope around any body — including a body
that raises — is equivalent to calling `setup()`, then the body, then
`teardown()`. -/
theorem claim_C1 {α : Type} (tok : String) (body : ScratchDir → Op α) (st : St) :
    withScope tok body st = setupThenTeardown tok body st := by
  unfold withScope setupThenTeardown enterScope exitScope
  rcases h : ScratchDir.setup tok st with ⟨r, st1⟩
  cases r <;> rfl

/-- Claim C2: on an inactive instance each of `file`, `named`, `spooled`,
`secure`, `directory`, `filename`, `join`, `teardown` and `child` raises
`ScratchDirInactiveError` and leaves the whole state unchanged. -/
theorem claim_C2 (st : St) (h : st.sd.is_active st.sys = false) :
    (∀ dir, ScratchDir.file dir st = (Except.error Err.inactive, st)) ∧
    (∀ tok sfx pfx dir del, ScratchDir.named tok sfx pfx dir del st =
      (Except.error Err.inactive, st)) ∧
    (∀ m dir, ScratchDir.spooled m dir st = (Except.error Err.inactive, st)) ∧
    (∀ tok fd sfx pfx dir rfd, ScratchDir.secure tok fd sfx pfx dir rfd st =
      (Except.error Err.inactive, st)) ∧
    (∀ tok sfx pfx dir, ScratchDir.directory tok sfx pfx dir st =
      (Except.error Err.inactive, st)) ∧
    (∀ u sfx pfx, ScratchDir.filename u sfx pfx st = (Except.error Err.inactive, st)) ∧
    (∀ paths, ScratchDir.join paths st = (Except.error Err.inactive, st)) ∧
    (ScratchDir.teardown st = (Except.error Err.inactive, st)) ∧
    (∀ p s, ScratchDir.child p s st = (Except.error Err.inactive, st)) := by
  refine ⟨?_, ?_, ?_, ?_, ?_, ?_, ?_, ?_, ?_⟩ <;>
    intros <;>
    simp [ScratchDir.file, ScratchDir.named, ScratchDir.spooled, ScratchDir.secure,
      ScratchDir.directory, ScratchDir.filename, ScratchDir.join, ScratchDir.teardown,
      ScratchDir.child, teardownWith, requires_activation, h]

/-- Witness for C2 at a freshly-constructed (inactive) instance. -/
theorem claim_C2_witness :
    (ScratchDir.is_active ⟨"", ".scratchdir", none, none, ""⟩ ⟨none, ["/tmp"]⟩ = false) ∧
    ScratchDir.teardown ⟨⟨"", ".scratchdir", none, none, ""⟩, ⟨none, ["/tmp"]⟩⟩ =
      (Except.error Err.inactive, ⟨⟨"", ".scratchdir", none, none, ""⟩, ⟨none, ["/tmp"]⟩⟩) ∧
    ScratchDir.join [some "a"] ⟨⟨"", ".scratchdir", none, none, ""⟩, ⟨none, ["/tmp"]⟩⟩ =
      (Except.error Err.inactive, ⟨⟨"", ".scratchdir", none, none, ""⟩, ⟨none, ["/tmp"]⟩⟩) ∧
    ScratchDir.child "" ".scratchdir" ⟨⟨"", ".scratchdir", none, none, ""⟩, ⟨none, ["/tmp"]⟩⟩ =
      (Except.error Err.inactive, ⟨⟨"", ".scratchdir", none, none, ""⟩, ⟨none, ["/tmp"]⟩⟩) :=
  ⟨by decide,
   (claim_C2 _ (by decide)).2.2.2.2.2.2.2.1,
   (claim_C2 _ (by decide)).2.2.2.2.2.2.1 [some "a"],
   (claim_C2 _ (by decide)).2.2.2.2.2.2.2.2 "" ".scratchdir"⟩

/-- Claim C3: `is_active` holds exactly when the working directory field
is a nonempty string and that path exists in the filesystem; the existence
test consults the current filesystem, so external deletion alone makes the
instance inactive. -/
theorem claim_C3 (sd : ScratchDir) (sys : Sys) :
    (sd.is_active sys = true ↔ sd.wd ≠ "" ∧ sd.wd ∈ sys.fs) ∧
    (∀ sys' : Sys, sd.wd ∉ sys'.fs → sd.is_active sys' = false) := by
  constructor
  · simp [ScratchDir.is_active, listContains_iff]
  · intro sys' hnot
    have : listContains sys'.fs sd.wd = false := by
      rcases hb : listContains sys'.fs sd.wd with _ | _
      · rfl
      · exact absurd ((listContains_iff _ _).mp hb) hnot
    simp [ScratchDir.is_active, this]

/-- Witness for C3: an instance whose directory was deleted externally. -/
theorem claim_C3_witness :
    (ScratchDir.is_active ⟨"", ".scratchdir", none, none, "/t/p"⟩ ⟨none, ["/t/p"]⟩ = true ↔
      ("/t/p" : String) ≠ "" ∧ ("/t/p" : String) ∈ ["/t/p"]) ∧
    ScratchDir.is_active ⟨"", ".scratchdir", none, none, "/t/p"⟩ ⟨none, ["/tmp"]⟩ = false :=
  ⟨(claim_C3 ⟨"", ".scratchdir", none, none, "/t/p"⟩ ⟨none, ["/t/p"]⟩).1,
   (claim_C3 ⟨"", ".scratchdir", none, none, "/t/p"⟩ ⟨none, ["/t/p"]⟩).2 ⟨none, ["/tmp"]⟩
     (by decide)⟩

theorem setup_wd_stable {st : St} (h : st.sd.wd ≠ "") (tok : String) :
    (ScratchDir.setup tok st).2.sd.wd = st.sd.wd := by
  simp only [ScratchDir.setup]
  rw [if_neg h]

/-- Claim C4: on an active instance `teardown()` recursively deletes the
working-directory subtree, then clears the working-directory field,
leaving the instance inactive; and for any behaviour of the
recursive-delete primitive, a failure propagates with the
working-directory field (indeed the whole state) left unchanged. -/
theorem claim_C4 (st : St) (h : st.sd.is_active st.sys = true) :
    (ScratchDir.teardown st).1 = Except.ok () ∧
    (ScratchDir.teardown st).2.sd = { st.sd with wd := DEFAULT_WD } ∧
    (ScratchDir.teardown st).2.sd.is_active (ScratchDir.teardown st).2.sys = false ∧
    (∀ q, (q = st.sd.wd ∨ listIsPre (st.sd.wd ++ "/").data q.data = true) →
      q ∉ (ScratchDir.teardown st).2.sys.fs) ∧
    (∀ rm e, rm st.sd.wd st.sys = Except.error e →
      teardownWith rm st = (Except.error e, st)) := by
  have hc : listContains st.sys.fs st.sd.wd = true := by
    have h2 := h
    rw [ScratchDir.is_active, Bool.and_eq_true] at h2
    exact h2.2
  have ht : ScratchDir.teardown st =
      (Except.ok (), ⟨{ st.sd with wd := DEFAULT_WD },
        { st.sys with fs := st.sys.fs.filter (outsideTree st.sd.wd) }⟩) := by
    simp only [ScratchDir.teardown, teardownWith, requires_activation, rmtree]
    simp only [h, if_true, hc]
  refine ⟨by rw [ht], by rw [ht], ?_, ?_, ?_⟩
  · rw [ht]
    simp [ScratchDir.is_active, DEFAULT_WD]
  · intro q hq hmem
    rw [ht] at hmem
    simp only [List.mem_filter] at hmem
    rcases hmem with ⟨_, hf⟩
    rcases hq with hq | hq
    · simp [outsideTree, hq] at hf
    · simp [strData_append] at hq
      simp [outsideTree, hq] at hf
  · intro rm e hrm
    simp only [teardownWith, requires_activation]
    simp only [h, if_true, hrm]

/-- Witness for C4 at an active instance owning a subtree; the failing
branch is exercised with a primitive that always reports an error. -/
theorem claim_C4_witness :
    (ScratchDir.is_active ⟨"", ".s", none, none, "/t/p"⟩ ⟨none, ["/t/p", "/t/p/a", "/tmp"]⟩ = true) ∧
    (ScratchDir.teardown ⟨⟨"", ".s", none, none, "/t/p"⟩, ⟨none, ["/t/p", "/t/p/a", "/tmp"]⟩⟩).1 =
      Except.ok () ∧
    "/t/p/a" ∉
      (ScratchDir.teardown ⟨⟨"", ".s", none, none, "/t/p"⟩, ⟨none, ["/t/p", "/t/p/a", "/tmp"]⟩⟩).2.sys.fs ∧
    teardownWith (fun _ _ => Except.error Err.notFound)
        ⟨⟨"", ".s", none, none, "/t/p"⟩, ⟨none, ["/t/p", "/t/p/a", "/tmp"]⟩⟩ =
      (Except.error Err.notFound,
        ⟨⟨"", ".s", none, none, "/t/p"⟩, ⟨none, ["/t/p", "/t/p/a", "/tmp"]⟩⟩) :=
  ⟨by decide,
   (claim_C4 _ (by decide)).1,
   (claim_C4 _ (by decide)).2.2.2.1 "/t/p/a" (Or.inr (by decide)),
   (claim_C4 _ (by decide)).2.2.2.2 _ _ rfl⟩

/-- Claim C5: `setup()` is idempotent on the working directory — with `wd`
already set it only re-assigns the global temp root and changes nothing
else; with `wd` unset it mints exactly one new uniquely-named directory
from the prefix, suffix and base and assigns it, after which the instance
is active; and a second `setup()` leaves the minted working directory
unchanged. -/
theorem claim_C5 (st : St) (tok : String) :
    (st.sd.wd ≠ "" →
      ScratchDir.setup tok st =
        (Except.ok (), ⟨st.sd, { st.sys with tempdir := st.sd.root }⟩)) ∧
    (∀ d : String, st.sd.wd = "" →
      d = dirOrDefault st.sd.base { st.sys with tempdir := st.sd.root } →
      d ∈ st.sys.fs → d ≠ "" →
      ScratchDir.setup tok st =
        (Except.ok (),
          ⟨{ st.sd with wd := pathJoin d (st.sd.pfx ++ tok ++ st.sd.suffix) },
            ⟨st.sd.root, pathJoin d (st.sd.pfx ++ tok ++ st.sd.suffix) :: st.sys.fs⟩⟩) ∧
      (ScratchDir.setup tok st).2.sd.is_active (ScratchDir.setup tok st).2.sys = true) ∧
    (∀ tok2 : String, (ScratchDir.setup tok st).2.sd.wd ≠ "" →
      (ScratchDir.setup tok2 (ScratchDir.setup tok st).2).2.sd.wd =
        (ScratchDir.setup tok st).2.sd.wd) := by
  refine ⟨?_, ?_, ?_⟩
  · intro h
    simp only [ScratchDir.setup]
    rw [if_neg h]
  · intro d h0 hd hmem hne
    have hcont : listContains st.sys.fs d = true := (listContains_iff _ _).mpr hmem
    have hEq : ScratchDir.setup tok st =
        (Except.ok (),
          ⟨{ st.sd with wd := pathJoin d (st.sd.pfx ++ tok ++ st.sd.suffix) },
            ⟨st.sd.root, pathJoin d (st.sd.pfx ++ tok ++ st.sd.suffix) :: st.sys.fs⟩⟩) := by
      simp only [ScratchDir.setup]
      rw [if_pos h0]
      simp only [mkdtemp, ← hd, hcont, if_true, sanitizePfx, sanitizeSfx]
    refine ⟨hEq, ?_⟩
    rw [hEq]
    have hp : pathJoin d (st.sd.pfx ++ tok ++ st.sd.suffix) ≠ "" := pathJoin_ne_empty _ hne
    simp [ScratchDir.is_active, listContains, hp]
  · intro tok2 hne2
    exact setup_wd_stable hne2 tok2

/-- Witness for C5: a fresh instance under base `/t/p` mints one
directory; running `setup` again keeps the same working directory. -/
theorem claim_C5_witness :
    ScratchDir.setup "t1" ⟨⟨"x", ".s", some "/t/p", none, ""⟩, ⟨none, ["/t/p"]⟩⟩ =
      (Except.ok (),
        ⟨⟨"x", ".s", some "/t/p", none, "/t/p/xt1.s"⟩, ⟨none, ["/t/p/xt1.s", "/t/p"]⟩⟩) ∧
    (ScratchDir.setup "t2"
        (ScratchDir.setup "t1" ⟨⟨"x", ".s", some "/t/p", none, ""⟩, ⟨none, ["/t/p"]⟩⟩).2).2.sd.wd =
      "/t/p/xt1.s" := by
  have h := claim_C5 ⟨⟨"x", ".s", some "/t/p", none, ""⟩, ⟨none, ["/t/p"]⟩⟩ "t1"
  constructor
  · have h2 := (h.2.1 "/t/p" rfl rfl (by decide) (by decide)).1
    rw [h2]
    rfl
  · rw [h.2.2 "t2" (by decide)]
    rfl

/-- Claim C7: `setup()` assigns the instance root to the process-wide
default temp-directory global as a side effect, and it is the only
operation that mutates that global — every other operation leaves the
global untouched. -/
theorem claim_C7 (st : St) :
    (∀ tok, (ScratchDir.setup tok st).2.sys.tempdir = st.sd.root) ∧
    ((ScratchDir.teardown st).2.sys.tempdir = st.sys.tempdir) ∧
    (∀ p s, (ScratchDir.child p s st).2.sys.tempdir = st.sys.tempdir) ∧
    (∀ dir, (ScratchDir.file dir st).2.sys.tempdir = st.sys.tempdir) ∧
    (∀ tok sfx pfx dir del,
      (ScratchDir.named tok sfx pfx dir del st).2.sys.tempdir = st.sys.tempdir) ∧
    (∀ m dir, (ScratchDir.spooled m dir st).2.sys.tempdir = st.sys.tempdir) ∧
    (∀ tok fd sfx pfx dir rfd,
      (ScratchDir.secure tok fd sfx pfx dir rfd st).2.sys.tempdir = st.sys.tempdir) ∧
    (∀ tok sfx pfx dir,
      (ScratchDir.directory tok sfx pfx dir st).2.sys.tempdir = st.sys.tempdir) ∧
    (∀ u sfx pfx, (ScratchDir.filename u sfx pfx st).2.sys.tempdir = st.sys.tempdir) ∧
    (∀ paths, (ScratchDir.join paths st).2.sys.tempdir = st.sys.tempdir) := by
  refine ⟨?_, ?_, ?_, ?_, ?_, ?_, ?_, ?_, ?_, ?_⟩
  · intro tok
    simp only [ScratchDir.setup]
    split
    · split
      · rename_i hm
        simp only [mkdtemp] at hm
        split at hm <;> cases hm
        rfl
      · rfl
    · rfl
  · simp only [ScratchDir.teardown, teardownWith, requires_activation]
    split
    · split
      · rename_i hm
        simp only [rmtree] at hm
        split at hm <;> cases hm
        rfl
      · rfl
    · rfl
  · intro p s
    simp only [ScratchDir.child, requires_activation]
    split <;> rfl
  · intro dir
    simp only [ScratchDir.file, requires_activation]
    split
    · split
      · rename_i hm
        simp only [TemporaryFile] at hm
        split at hm <;> cases hm
        rfl
      · rfl
    · rfl
  · intro tok sfx pfx dir del
    simp only [ScratchDir.named, requires_activation]
    split
    · split
      · rename_i hm
        simp only [NamedTemporaryFile] at hm
        split at hm <;> cases hm
        rfl
      · rfl
    · rfl
  · intro m dir
    simp only [ScratchDir.spooled, requires_activation]
    split <;> rfl
  · intro tok fd sfx pfx dir rfd
    simp only [ScratchDir.secure, requires_activation]
    split
    · split
      · rename_i hm
        simp only [mkstemp] at hm
        split at hm <;> cases hm
        split <;> rfl
      · rfl
    · rfl
  · intro tok sfx pfx dir
    simp only [ScratchDir.directory, requires_activation]
    split
    · split
      · rename_i hm
        simp only [mkdtemp] at hm
        split at hm <;> cases hm
        rfl
      · rfl
    · rfl
  · intro u sfx pfx
    simp only [ScratchDir.filename, requires_activation]
    split <;> rfl
  · intro paths
    simp only [ScratchDir.join, requires_activation]
    split <;> rfl

/-- Claim C9: on an active instance, `join(*paths)` returns exactly the
working directory concatenated (via the path-join of the platform) with
the given segments in order, the unset (`None`) segments skipped, and
performs no I/O: the program state is returned unchanged. -/
theorem claim_C9 (st : St) (h : st.sd.is_active st.sys = true)
    (paths : List (Option String)) (_hne : paths ≠ []) :
    ScratchDir.join paths st =
      (Except.ok (osPathJoin st.sd.wd (paths.filterMap id)), st) := by
  simp [ScratchDir.join, requires_activation, h, joinPure]

/-- Witness for C9 joining two set segments around a skipped `None`. -/
theorem claim_C9_witness :
    (ScratchDir.is_active ⟨"", ".s", none, none, "/t/p"⟩ ⟨none, ["/t/p"]⟩ = true) ∧
    ScratchDir.join [some "a", none, some "b"] ⟨⟨"", ".s", none, none, "/t/p"⟩, ⟨none, ["/t/p"]⟩⟩ =
      (Except.ok (osPathJoin "/t/p" ["a", "b"]), ⟨⟨"", ".s", none, none, "/t/p"⟩, ⟨none, ["/t/p"]⟩⟩) :=
  ⟨by decide,
   claim_C9 ⟨⟨"", ".s", none, none, "/t/p"⟩, ⟨none, ["/t/p"]⟩⟩ (by decide)
     [some "a", none, some "b"] (by decide)⟩

theorem toHexFixed_length (k : Nat) : ∀ n, (toHexFixed k n).length = k := by
  induction k with
  | zero => intro n; rfl
  | succ k ih => intro n; simp [toHexFixed, ih]

theorem hexChar_fin_inj : ∀ a b : Fin 16, hexChar a.val = hexChar b.val → a = b := by decide

theorem hexChar_fin_ne_dash : ∀ a : Fin 16, hexChar a.val ≠ '-' := by decide

theorem hexChar_fin_ne_slash : ∀ a : Fin 16, hexChar a.val ≠ '/' := by decide

theorem hexChar_inj {a b : Nat} (ha : a < 16) (hb : b < 16) (h : hexChar a = hexChar b) :
    a = b :=
  congrArg Fin.val (hexChar_fin_inj ⟨a, ha⟩ ⟨b, hb⟩ h)

theorem toHexFixed_mem {k : Nat} : ∀ {n : Nat} {c : Char}, c ∈ toHexFixed k n →
    ∃ d, d < 16 ∧ c = hexChar d := by
  induction k with
  | zero => intro n c h; simp [toHexFixed] at h
  | succ k ih =>
    intro n c h
    simp only [toHexFixed, List.mem_append, List.mem_singleton] at h
    rcases h with h | h
    · exact ih h
    · exact ⟨n % 16, Nat.mod_lt _ (by omega), h⟩

theorem toHexFixed_inj : ∀ k n m, n < 16 ^ k → m < 16 ^ k →
    toHexFixed k n = toHexFixed k m → n = m := by
  intro k
  induction k with
  | zero => intro n m hn hm _; omega
  | succ k ih =>
    intro n m hn hm h
    simp only [toHexFixed] at h
    have hlen : (toHexFixed k (n / 16)).length = (toHexFixed k (m / 16)).length := by
      simp [toHexFixed_length]
    obtain ⟨h1, h2⟩ := List.append_inj h hlen
    have hps : (16 : Nat) ^ (k + 1) = 16 ^ k * 16 := pow_succ 16 k
    have hd : n / 16 = m / 16 := by
      refine ih _ _ ?_ ?_ h1
      · exact Nat.div_lt_of_lt_mul (by omega)
      · exact Nat.div_lt_of_lt_mul (by omega)
    have hm16 : hexChar (n % 16) = hexChar (m % 16) := by simpa using h2
    have he : n % 16 = m % 16 :=
      hexChar_inj (Nat.mod_lt _ (by omega)) (Nat.mod_lt _ (by omega)) hm16
    omega

theorem dashify_filter {h : List Char} (hh : ∀ c ∈ h, c ≠ '-') :
    (dashify h).filter (fun c => decide (c ≠ '-')) = h := by
  have hsub : ∀ l : List Char, l ⊆ h → l.filter (fun c => decide (c ≠ '-')) = l := by
    intro l hl
    rw [List.filter_eq_self]
    intro a ha
    simpa using hh a (hl ha)
  have hcons : ∀ l : List Char, ('-' :: l).filter (fun c => decide (c ≠ '-')) =
      l.filter (fun c => decide (c ≠ '-')) := by
    intro l
    simp
  simp only [dashify, List.filter_append, hcons]
  rw [hsub _ (List.take_subset _ _),
    hsub _ ((List.take_subset _ _).trans (List.drop_subset _ _)),
    hsub _ ((List.take_subset _ _).trans ((List.drop_subset _ _).trans (List.drop_subset _ _))),
    hsub _ ((List.take_subset _ _).trans ((List.drop_subset _ _).trans
      ((List.drop_subset _ _).trans (List.drop_subset _ _)))),
    hsub _ ((List.drop_subset _ _).trans ((List.drop_subset _ _).trans
      ((List.drop_subset _ _).trans (List.drop_subset _ _))))]
  rw [List.take_append_drop, List.take_append_drop, List.take_append_drop,
    List.take_append_drop]

theorem dashify_inj {h1 h2 : List Char} (hh1 : ∀ c ∈ h1, c ≠ '-') (hh2 : ∀ c ∈ h2, c ≠ '-')
    (he : dashify h1 = dashify h2) : h1 = h2 := by
  have hf := congrArg (List.filter (fun c => decide (c ≠ '-'))) he
  rwa [dashify_filter hh1, dashify_filter hh2] at hf

theorem toHexFixed_no_dash (w k : Nat) : ∀ c ∈ toHexFixed k w, c ≠ '-' := by
  intro c hc
  obtain ⟨d, hd16, hEq⟩ := toHexFixed_mem hc
  rw [hEq]
  exact hexChar_fin_ne_dash ⟨d, hd16⟩

theorem uuidStr_inj {u v : Nat} (h : uuidStr u = uuidStr v) : u % 2 ^ 128 = v % 2 ^ 128 := by
  have hd : dashify (toHexFixed 32 (u % 2 ^ 128)) = dashify (toHexFixed 32 (v % 2 ^ 128)) :=
    congrArg String.data h
  have hx := dashify_inj (toHexFixed_no_dash _ 32) (toHexFixed_no_dash _ 32) hd
  have h16 : (16 : Nat) ^ 32 = 2 ^ 128 := by norm_num
  refine toHexFixed_inj 32 _ _ ?_ ?_ hx
  · rw [h16]; exact Nat.mod_lt _ (by positivity)
  · rw [h16]; exact Nat.mod_lt _ (by positivity)

theorem uuidStr_head_ne_slash (u : Nat) {c : Char} (hc : (uuidStr u).data.head? = some c) :
    c ≠ '/' := by
  rcases hx : toHexFixed 32 (u % 2 ^ 128) with _ | ⟨a, t⟩
  · have hl := toHexFixed_length 32 (u % 2 ^ 128)
    rw [hx] at hl
    simp at hl
  · have ha : a ∈ toHexFixed 32 (u % 2 ^ 128) := by
      rw [hx]; exact List.mem_cons_self a t
    obtain ⟨d, hd16, hEq⟩ := toHexFixed_mem ha
    have hhead : (uuidStr u).data.head? = some a := by
      have hdata : (uuidStr u).data = dashify (toHexFixed 32 (u % 2 ^ 128)) := rfl
      rw [hdata, hx]
      simp [dashify]
    rw [hhead] at hc
    have hac : a = c := Option.some.inj hc
    rw [← hac, hEq]
    exact hexChar_fin_ne_slash ⟨d, hd16⟩

theorem uuid_data_ne_nil (u : Nat) : (uuidStr u).data ≠ [] := by
  intro h
  have hlen := congrArg List.length h
  simp [uuidStr, dashify] at hlen

theorem affix_head (A S : String) (u : Nat) :
    (A ++ uuidStr u ++ S).data.head? =
      (if A = "" then (uuidStr u).data.head? else A.data.head?) := by
  rw [strData_append, strData_append]
  rcases hA : A.data with _ | ⟨a, t⟩
  · have hA0 : A = "" := strExt (by rw [hA])
    rw [if_pos hA0]
    rcases hu : (uuidStr u).data with _ | ⟨b, t2⟩
    · exact absurd hu (uuid_data_ne_nil u)
    · simp
  · have hA1 : A ≠ "" := by
      intro hc
      rw [hc] at hA
      simp at hA
    rw [if_neg hA1]
    simp

theorem pathJoin_inj {a b1 b2 : String}
    (hb : (b1.data.head? = some '/') ↔ (b2.data.head? = some '/'))
    (h : pathJoin a b1 = pathJoin a b2) : b1 = b2 := by
  unfold pathJoin at h
  by_cases h1 : b1.data.head? = some '/'
  · rwa [if_pos h1, if_pos (hb.mp h1)] at h
  · rw [if_neg h1, if_neg (fun hh => h1 (hb.mpr hh))] at h
    by_cases h2 : a = "" ∨ a.data.getLast? = some '/'
    · rw [if_pos h2, if_pos h2] at h
      exact strApp_cancel_left h
    · rw [if_neg h2, if_neg h2] at h
      exact strApp_cancel_left h

/-- Claim C8: on an active instance `filename(suffix, prefix)` returns the
working directory path-joined with `prefix ++ token ++ suffix`, the token
being the canonical string form of the 128-bit random identifier drawn
from the generator, with no further on-disk check (the state is returned
unchanged); distinct generated identifiers yield distinct paths. -/
theorem claim_C8 (st : St) (h : st.sd.is_active st.sys = true) (sfx pfx : Option String)
    (u : Nat) :
    ScratchDir.filename u sfx pfx st =
      (Except.ok (pathJoin st.sd.wd (optStr pfx ++ uuidStr u ++ optStr sfx)), st) ∧
    (∀ v : Nat, u % 2 ^ 128 ≠ v % 2 ^ 128 →
      (ScratchDir.filename u sfx pfx st).1 ≠ (ScratchDir.filename v sfx pfx st).1) := by
  have hval : ∀ w : Nat, ScratchDir.filename w sfx pfx st =
      (Except.ok (pathJoin st.sd.wd (optStr pfx ++ uuidStr w ++ optStr sfx)), st) := by
    intro w
    simp [ScratchDir.filename, requires_activation, h, joinPure, osPathJoin]
  refine ⟨hval u, ?_⟩
  intro v huv hEq
  rw [hval u, hval v] at hEq
  simp only [Except.ok.injEq] at hEq
  have hb : ((optStr pfx ++ uuidStr u ++ optStr sfx).data.head? = some '/') ↔
      ((optStr pfx ++ uuidStr v ++ optStr sfx).data.head? = some '/') := by
    rw [affix_head, affix_head]
    by_cases hA : optStr pfx = ""
    · rw [if_pos hA, if_pos hA]
      constructor
      · intro hcu; exact absurd rfl (uuidStr_head_ne_slash u hcu)
      · intro hcv; exact absurd rfl (uuidStr_head_ne_slash v hcv)
    · rw [if_neg hA, if_neg hA]
  have hx := pathJoin_inj hb hEq
  have huu : uuidStr u = uuidStr v := strApp_cancel_left (strApp_cancel_right hx)
  exact huv (uuidStr_inj huu)

/-- Witness for C8 with identifiers 0 and 1 on an active instance. -/
theorem claim_C8_witness :
    (ScratchDir.is_active ⟨"", ".s", none, none, "/t/p"⟩ ⟨none, ["/t/p"]⟩ = true) ∧
    (ScratchDir.filename 0 none none ⟨⟨"", ".s", none, none, "/t/p"⟩, ⟨none, ["/t/p"]⟩⟩).1 ≠
      (ScratchDir.filename 1 none none ⟨⟨"", ".s", none, none, "/t/p"⟩, ⟨none, ["/t/p"]⟩⟩).1 :=
  ⟨by decide, (claim_C8 _ (by decide) none none 0).2 1 (by decide)⟩

/-- Counterexample to C6 as stated: with an absolute name prefix (here
`/e`) the platform path-join discards the parent directory, so the child
activated from an active parent at `/t/p` receives working directory
`/ex.d`, which is not a strict descendant of `/t/p`. -/
theorem claim_C6_counterexample :
    (ScratchDir.child "/e" ".d" ⟨⟨"", ".scratchdir", none, none, "/t/p"⟩, ⟨none, ["/t/p"]⟩⟩).1 =
      Except.ok ⟨"/e", ".d", some "/t/p", none, ""⟩ ∧
    (ScratchDir.setup "x" ⟨⟨"/e", ".d", some "/t/p", none, ""⟩, ⟨none, ["/t/p"]⟩⟩).2.sd.wd =
      "/ex.d" ∧
    strictDescendant "/t/p" "/ex.d" = false :=
  ⟨rfl, by decide, by decide⟩

/-- Claim C6 as amended: on an active instance `child(prefix, suffix)`
returns a brand-new instance carrying the given prefix and suffix with
`base` the parent working directory and no working directory of its own
(hence inactive in every filesystem until its own setup); and — provided
the generated name `prefix ++ token ++ suffix` is nonempty and not an
absolute path, and the parent working directory does not end in the
separator — the working directory the child mints on activation is a
strict descendant of the parent working directory. -/
theorem claim_C6 (st : St) (p s tok : String)
    (h : st.sd.is_active st.sys = true)
    (hname : (p ++ tok ++ s) ≠ "")
    (habs : ¬(p ++ tok ++ s).data.head? = some '/')
    (hsl : ¬st.sd.wd.data.getLast? = some '/') :
    ScratchDir.child p s st =
      (Except.ok ⟨p, s, some st.sd.wd, INIT_TEMPDIR, DEFAULT_WD⟩, st) ∧
    (∀ sys' : Sys,
      ScratchDir.is_active ⟨p, s, some st.sd.wd, INIT_TEMPDIR, DEFAULT_WD⟩ sys' = false) ∧
    (∀ sys' : Sys, st.sd.wd ∈ sys'.fs →
      strictDescendant st.sd.wd
        ((ScratchDir.setup tok
          ⟨⟨p, s, some st.sd.wd, INIT_TEMPDIR, DEFAULT_WD⟩, sys'⟩).2.sd.wd) = true) := by
  have hwd : st.sd.wd ≠ "" := by
    have h2 := h
    rw [ScratchDir.is_active, Bool.and_eq_true] at h2
    simpa using h2.1
  refine ⟨?_, ?_, ?_⟩
  · simp [ScratchDir.child, requires_activation, h]
  · intro sys'
    simp [ScratchDir.is_active, DEFAULT_WD]
  · intro sys' hmem
    have hcont : listContains sys'.fs st.sd.wd = true := (listContains_iff _ _).mpr hmem
    have hset : (ScratchDir.setup tok
        ⟨⟨p, s, some st.sd.wd, INIT_TEMPDIR, DEFAULT_WD⟩, sys'⟩).2.sd.wd =
        pathJoin st.sd.wd (p ++ tok ++ s) := by
      simp [ScratchDir.setup, DEFAULT_WD, mkdtemp, dirOrDefault, sanitizePfx, sanitizeSfx,
        hcont]
    rw [hset]
    have hj : pathJoin st.sd.wd (p ++ tok ++ s) = st.sd.wd ++ "/" ++ (p ++ tok ++ s) := by
      unfold pathJoin
      rw [if_neg habs, if_neg (not_or.mpr ⟨hwd, hsl⟩)]
    rw [hj]
    unfold strictDescendant
    rw [strData_append (st.sd.wd ++ "/") (p ++ tok ++ s), listIsPre_append]
    have hlen : (p ++ tok ++ s).data ≠ [] := strNe_data hname
    simp [strData_append]
    have hpos : 0 < (p ++ tok ++ s).length := List.length_pos.mpr hlen
    rw [String.length_append, String.length_append] at hpos
    omega

/-- Witness for C6 with a relative prefix `c` under parent `/t/p`. -/
theorem claim_C6_witness :
    ScratchDir.child "c" ".d" ⟨⟨"", ".scratchdir", none, none, "/t/p"⟩, ⟨none, ["/t/p"]⟩⟩ =
      (Except.ok ⟨"c", ".d", some "/t/p", none, ""⟩,
        ⟨⟨"", ".scratchdir", none, none, "/t/p"⟩, ⟨none, ["/t/p"]⟩⟩) ∧
    strictDescendant "/t/p"
      ((ScratchDir.setup "x"
        ⟨⟨"c", ".d", some "/t/p", none, ""⟩, ⟨none, ["/t/p"]⟩⟩).2.sd.wd) = true := by
  have h := claim_C6 ⟨⟨"", ".scratchdir", none, none, "/t/p"⟩, ⟨none, ["/t/p"]⟩⟩ "c" ".d" "x"
    (by decide) (by decide) (by decide) (by decide)
  exact ⟨h.1, h.2.2 ⟨none, ["/t/p"]⟩ (by decide)⟩

/-- Counterexample to C10 as stated: the claim predicts the child takes
the process-wide default temp-root current at call time (`/custom` here),
but the Python default argument was evaluated when the constructor was
defined, so the child root is the frozen import-time value `none`. -/
theorem claim_C10_counterexample :
    (ScratchDir.child "a" "b"
      ⟨⟨"p", ".s", none, some "/r", "/t/p"⟩, ⟨some "/custom", ["/t/p"]⟩⟩).1 =
      Except.ok ⟨"a", "b", some "/t/p", none, ""⟩ ∧
    ((⟨"a", "b", some "/t/p", none, ""⟩ : ScratchDir).root ≠
      (⟨some "/custom", ["/t/p"]⟩ : Sys).tempdir) :=
  ⟨rfl, by decide⟩

/-- Claim C10 as amended: the child never inherits the parent root — its
root is the import-time default value of the module temp root
(`INIT_TEMPDIR`, normally unset), independent of the current value of the
process-wide global; in particular a non-default parent root is not
propagated. -/
theorem claim_C10 (st : St) (p s : String) (h : st.sd.is_active st.sys = true) :
    (ScratchDir.child p s st).1 =
      Except.ok ⟨p, s, some st.sd.wd, INIT_TEMPDIR, DEFAULT_WD⟩ ∧
    (∀ g : Option String,
      (ScratchDir.child p s ⟨st.sd, ⟨g, st.sys.fs⟩⟩).1 = (ScratchDir.child p s st).1) ∧
    (st.sd.root ≠ INIT_TEMPDIR →
      ∀ c, (ScratchDir.child p s st).1 = Except.ok c → c.root ≠ st.sd.root) := by
  have h0 : (ScratchDir.child p s st).1 =
      Except.ok ⟨p, s, some st.sd.wd, INIT_TEMPDIR, DEFAULT_WD⟩ := by
    simp [ScratchDir.child, requires_activation, h]
  have h1 : ∀ g : Option String,
      (ScratchDir.child p s ⟨st.sd, ⟨g, st.sys.fs⟩⟩).1 =
        Except.ok ⟨p, s, some st.sd.wd, INIT_TEMPDIR, DEFAULT_WD⟩ := by
    intro g
    have hact : st.sd.is_active ⟨g, st.sys.fs⟩ = true := h
    simp [ScratchDir.child, requires_activation, hact]
  refine ⟨h0, ?_, ?_⟩
  · intro g
    rw [h1 g, h0]
  · intro hroot c hc
    rw [h0] at hc
    have hcv : c = ⟨p, s, some st.sd.wd, INIT_TEMPDIR, DEFAULT_WD⟩ := (Except.ok.inj hc).symm
    rw [hcv]
    exact fun hcc => hroot hcc.symm

/-- Witness for C10 at a parent with non-default root `/r` while the
global temp root holds `/custom`. -/
theorem claim_C10_witness :
    (ScratchDir.is_active ⟨"p", ".s", none, some "/r", "/t/p"⟩ ⟨some "/custom", ["/t/p"]⟩ = true) ∧
    (ScratchDir.child "a" "b"
      ⟨⟨"p", ".s", none, some "/r", "/t/p"⟩, ⟨some "/custom", ["/t/p"]⟩⟩).1 =
      Except.ok ⟨"a", "b", some "/t/p", INIT_TEMPDIR, DEFAULT_WD⟩ ∧
    (∀ c, (ScratchDir.child "a" "b"
        ⟨⟨"p", ".s", none, some "/r", "/t/p"⟩, ⟨some "/custom", ["/t/p"]⟩⟩).1 = Except.ok c →
      c.root ≠ some "/r") :=
  ⟨by decide,
   (claim_C10 _ "a" "b" (by decide)).1,
   (claim_C10 _ "a" "b" (by decide)).2.2 (by decide)⟩
